import Mathlib

/-!
Verification of the invoice engine of an invoice-generator web application:
the invoice-number generator and totals calculator (`utils/invoiceUtils.ts`),
the two Mongoose `pre('save')` hooks and the unique indexes of the invoice
schema (`models/Invoice.ts`), and the duplicate operation of the invoice
controller (`controllers/invoiceController.ts`).

JavaScript strings are embedded as `List Char` (`Str`); JavaScript numbers are
embedded as `ℚ`; `Date` values are embedded as rational timestamps; a missing
(`undefined`/`null`) value is `Option.none`.  The persisted collection is a
`List` of documents; the MongoDB query used by the generator (filter by owner
and prefix, sort descending by `invoiceNumber`, take the first document) is
embedded as a maximum under lexicographic string order, which is how MongoDB
compares ASCII strings.
-/

namespace InvoiceApp

/-- Characters of a JavaScript string. -/
abbrev Str := List Char

/-- `s.padStart(n, c)`: left-pad with `c` up to length `n`; a string already at
least `n` long is returned unchanged. -/
def padStart (s : Str) (n : Nat) (c : Char) : Str :=
  if n ≤ s.length then s else List.replicate (n - s.length) c ++ s

/-- The decimal digits of `n`, as produced by JS `String(n)` for a natural
number. -/
def natToChars (n : Nat) : Str :=
  Nat.toDigits 10 n

/-- JS `String(i)` for an integer value. -/
def intToChars (i : Int) : Str :=
  if i < 0 then '-' :: natToChars i.natAbs else natToChars i.natAbs

/-- Lexicographic strict comparison of strings by character code, the order
MongoDB uses when sorting ASCII string fields. -/
def strLt : Str → Str → Bool
  | [], [] => false
  | [], _ :: _ => true
  | _ :: _, [] => false
  | a :: as, b :: bs =>
    if a < b then true else if b < a then false else strLt as bs

/-- Does the second string start with the first (`$regex: ^pfx` on a literal
pattern)? -/
def isPfx : Str → Str → Bool
  | [], _ => true
  | _ :: _, [] => false
  | a :: as, b :: bs => a == b && isPfx as bs

/-- Auxiliary recursion for `splitDash`, carrying the current segment in
reverse. -/
def splitDashAux : Str → Str → List Str
  | [], cur => [cur.reverse]
  | c :: cs, cur =>
    if c = '-' then cur.reverse :: splitDashAux cs [] else splitDashAux cs (c :: cur)

/-- `s.split('-')`: split on every dash, keeping empty segments. -/
def splitDash (s : Str) : List Str :=
  splitDashAux s []

/-- Is the first character a decimal digit? -/
def startsWithDigit : Str → Bool
  | [] => false
  | c :: _ => c.isDigit

/-- Value of the maximal leading run of decimal digits, folded onto `acc`. -/
def leadDigitsVal : Str → Nat → Nat
  | [], acc => acc
  | c :: cs, acc =>
    if c.isDigit then leadDigitsVal cs (acc * 10 + (c.toNat - '0'.toNat)) else acc

/-- JS `parseInt(s)` on base-10 input: skip leading whitespace, read an optional
sign, then the maximal run of decimal digits.  `none` models the `NaN` result
returned when no digit follows. -/
def jsParseInt (s : Str) : Option Int :=
  let t := s.dropWhile Char.isWhitespace
  match t with
  | '-' :: r => if startsWithDigit r then some (-(leadDigitsVal r 0 : Int)) else none
  | '+' :: r => if startsWithDigit r then some (leadDigitsVal r 0 : Int) else none
  | r => if startsWithDigit r then some (leadDigitsVal r 0 : Int) else none

/-- The fields of a persisted invoice document consulted by the number
generator and by the unique indexes of the schema. -/
structure Doc where
  userId : Str
  invoiceNumber : Str
deriving DecidableEq, Repr

/-- The month prefix `INV-${year}-${month}` built by `generateInvoiceNumber`,
with the month zero-padded to two characters. -/
def monthPfx (year month : Nat) : Str :=
  "INV-".toList ++ natToChars year ++ "-".toList ++ padStart (natToChars month) 2 '0'

/-- The query
`Invoice.findOne({ userId, invoiceNumber: { $regex: ^pfx } }).sort({ invoiceNumber: -1 })`:
among the caller's documents whose number starts with `pfx`, the one with the
lexicographically greatest `invoiceNumber` (or `none` when no document
matches). -/
def latestMatch (userId : Str) (pfx : Str) (db : List Doc) : Option Doc :=
  (db.filter (fun d => d.userId == userId && isPfx pfx d.invoiceNumber)).foldl
    (fun acc d =>
      match acc with
      | none => some d
      | some m => if strLt m.invoiceNumber d.invoiceNumber then some d else some m)
    none

/-- `generateInvoiceNumber` from `utils/invoiceUtils.ts`, with the clock
injected as `year`/`month` and the persisted collection as `db`.  The sequence
is carried as an `Option Int` whose `none` models the JS `NaN` produced when
`parseInt` finds no digits in `latestInvoice.invoiceNumber.split('-')[3]`
(`NaN + 1` is again `NaN`, and `String(NaN)` is `"NaN"`). -/
def generateInvoiceNumber (userId : Str) (year month : Nat) (db : List Doc) : Str :=
  let pfx := monthPfx year month
  let seq : Option Int :=
    match latestMatch userId pfx db with
    | none => some 1
    | some latest =>
      match jsParseInt ((splitDash latest.invoiceNumber).getD 3 []) with
      | some lastSeq => some (lastSeq + 1)
      | none => none
  pfx ++ '-' :: padStart (match seq with | some k => intToChars k | none => "NaN".toList) 4 '0'

/-- A line item: `{description, quantity, rate, amount}`. -/
structure Item where
  description : Str
  quantity : ℚ
  rate : ℚ
  amount : ℚ
deriving DecidableEq, Repr

/-- The record returned by `calculateInvoiceTotals`. -/
structure Totals where
  subtotal : ℚ
  taxAmount : ℚ
  discountAmount : ℚ
  total : ℚ
deriving DecidableEq, Repr

/-- `items.reduce((sum, item) => sum + item.quantity * item.rate, 0)`. -/
def rawSubtotal (items : List Item) : ℚ :=
  items.foldl (fun sum it => sum + it.quantity * it.rate) 0

/-- JS `Math.round`: the nearest integer, with ties rounded toward positive
infinity, i.e. the floor of `x + 1/2` (written with the executable
`Rat.floor`). -/
def jsMathRound (x : ℚ) : Int :=
  Rat.floor (x + 1 / 2)

/-- `Math.round(x * 100) / 100`, the two-decimal rounding used in
`calculateInvoiceTotals`. -/
def round2 (x : ℚ) : ℚ :=
  (jsMathRound (x * 100) : ℚ) / 100

/-- `calculateInvoiceTotals(items, taxRate, discountRate)`: raw subtotal, tax,
discount and total, each rounded to two decimals at the final step only. -/
def calculateInvoiceTotals (items : List Item) (taxRate discountRate : ℚ) : Totals :=
  let subtotal := rawSubtotal items
  let taxAmount := subtotal * taxRate / 100
  let discountAmount := subtotal * discountRate / 100
  let total := subtotal + taxAmount - discountAmount
  { subtotal := round2 subtotal
    taxAmount := round2 taxAmount
    discountAmount := round2 discountAmount
    total := round2 total }

/-- `calculateInvoiceTotals` paired with the contents of the `items` array
after the call: the reduce callback reads `item.quantity` and `item.rate` and
writes nothing, so every element is carried through unchanged. -/
def calculateInvoiceTotalsRun (items : List Item) (taxRate discountRate : ℚ) :
    Totals × List Item :=
  let p := items.foldl
    (fun (q : ℚ × List Item) it => (q.1 + it.quantity * it.rate, q.2 ++ [it])) (0, [])
  let subtotal := p.1
  let taxAmount := subtotal * taxRate / 100
  let discountAmount := subtotal * discountRate / 100
  let total := subtotal + taxAmount - discountAmount
  ({ subtotal := round2 subtotal
     taxAmount := round2 taxAmount
     discountAmount := round2 discountAmount
     total := round2 total }, p.2)

/-- Modelled from the spec's words: rounding half away from zero (the rounding
mode the spec names for the four monetary outputs).  A nonnegative value is
rounded half up; a negative value is rounded by symmetry, so that ties move
away from zero in both directions. -/
def roundHalfAwayFromZero (x : ℚ) : Int :=
  if 0 ≤ x then Rat.floor (x + 1 / 2) else -Rat.floor (-x + 1 / 2)

/-- Modelled from the spec's words: round half away from zero to two decimal
places. -/
def round2Away (x : ℚ) : ℚ :=
  (roundHalfAwayFromZero (x * 100) : ℚ) / 100

/-- The invoice status enumeration of the schema. -/
inductive Status where
  | draft
  | sent
  | paid
  | overdue
  | cancelled
deriving DecidableEq, Repr

/-- An invoice document with the fields the hooks and the duplicate operation
touch.  Dates are rational timestamps; `paidDate` is `none` when unset. -/
structure Invoice where
  userId : Str
  customerId : Str
  invoiceNumber : Str
  status : Status
  items : List Item
  subtotal : ℚ
  taxRate : ℚ
  taxAmount : ℚ
  discountRate : ℚ
  discountAmount : ℚ
  total : ℚ
  currency : Str
  issueDate : ℚ
  dueDate : ℚ
  paidDate : Option ℚ
  notes : Option Str
  terms : Option Str
deriving DecidableEq, Repr

/-- The single `reduce` of the first `pre('save')` hook: accumulates the
subtotal while overwriting each item's `amount` with `quantity * rate`. -/
def hookFold (items : List Item) : ℚ × List Item :=
  items.foldl
    (fun p it =>
      let a := it.quantity * it.rate
      (p.1 + a, p.2 ++ [{ it with amount := a }]))
    (0, [])

/-- The first `pre('save')` hook of the invoice schema: recompute every item
amount, the subtotal, the tax amount, the discount amount and the total.  No
rounding is applied anywhere in this hook. -/
def totalsHook (inv : Invoice) : Invoice :=
  let p := hookFold inv.items
  let subtotal := p.1
  let taxAmount := subtotal * inv.taxRate / 100
  let discountAmount := subtotal * inv.discountRate / 100
  { inv with
    items := p.2
    subtotal := subtotal
    taxAmount := taxAmount
    discountAmount := discountAmount
    total := subtotal + taxAmount - discountAmount }

/-- The second `pre('save')` hook of the invoice schema ("update status based
on dates"), with the current clock injected as `now`:
if a `paidDate` is present and the status is not `paid`, force `paid`;
else if no `paidDate` is present and the status is `paid`, assign
`paidDate = undefined` (the status itself is left untouched);
else if the due date has passed, the status is `sent` and no `paidDate` is
present, force `overdue`. -/
def statusHook (now : ℚ) (inv : Invoice) : Invoice :=
  if inv.paidDate.isSome ∧ inv.status ≠ Status.paid then
    { inv with status := Status.paid }
  else if inv.paidDate.isNone ∧ inv.status = Status.paid then
    { inv with paidDate := none }
  else if inv.dueDate < now ∧ inv.status = Status.sent ∧ inv.paidDate.isNone then
    { inv with status := Status.overdue }
  else
    inv

/-- Saving an invoice document runs the totals hook and then the status hook. -/
def saveHooks (now : ℚ) (inv : Invoice) : Invoice :=
  statusHook now (totalsHook inv)

/-- The uniqueness enforcement declared by the invoice schema: the field-level
`unique: true` index on `invoiceNumber` alone, and the compound unique index on
`(userId, invoiceNumber)`.  An insert conflicting with either index is
rejected (`none`). -/
def insertInvoice (db : List Doc) (d : Doc) : Option (List Doc) :=
  if db.any (fun e => e.invoiceNumber == d.invoiceNumber) then none
  else if db.any (fun e => e.userId == d.userId && e.invoiceNumber == d.invoiceNumber) then none
  else some (db ++ [d])

/-- The index fields of an invoice document. -/
def toDoc (inv : Invoice) : Doc :=
  { userId := inv.userId, invoiceNumber := inv.invoiceNumber }

/-- The new invoice built by the `duplicateInvoice` controller: the original's
fields with a freshly generated invoice number, status reset to `draft` and
`paidDate` cleared, passed through the save hooks by `newInvoice.save()`. -/
def dupNew (db : List Invoice) (orig : Invoice) (year month : Nat) (now : ℚ) : Invoice :=
  let fresh := generateInvoiceNumber orig.userId year month (db.map toDoc)
  saveHooks now { orig with invoiceNumber := fresh, status := Status.draft, paidDate := none }

/-- The `duplicateInvoice` operation on the persisted collection: the original
stays, the duplicate is appended. -/
def duplicateInvoiceOp (db : List Invoice) (orig : Invoice) (year month : Nat) (now : ℚ) :
    List Invoice :=
  db ++ [dupNew db orig year month now]

/-- The invoice number `INV-YYYY-MM-SEQ` the generator produces for a given
sequence value. -/
def mkNum (year month seq : Nat) : Str :=
  monthPfx year month ++ '-' :: padStart (natToChars seq) 4 '0'

/-- The worked example of the spec: two items `{qty 1, rate 2500}` and
`{qty 10, rate 150}`. -/
def itemsExample : List Item :=
  [{ description := "Website Development".toList, quantity := 1, rate := 2500, amount := 0 },
   { description := "SEO Optimization".toList, quantity := 10, rate := 150, amount := 0 }]

/-- An invoice with one item of quantity `1` and rate `0.1` at tax rate `5` and
discount rate `0` (all within the claimed input ranges): its raw tax amount is
`0.005`, whose two-decimal rounding would be `0.01`. -/
def invTenth : Invoice :=
  { userId := "U1".toList, customerId := "C1".toList
    invoiceNumber := "INV-2025-09-0001".toList
    status := Status.draft
    items := [{ description := "a".toList, quantity := 1, rate := 1 / 10, amount := 0 }]
    subtotal := 0, taxRate := 5, taxAmount := 0
    discountRate := 0, discountAmount := 0, total := 0
    currency := "USD".toList, issueDate := 0, dueDate := 100
    paidDate := none, notes := none, terms := none }

/-- An invoice carrying `status = paid` with no `paidDate`, and a due date
already in the past. -/
def invPaidNoDate : Invoice :=
  { userId := "U1".toList, customerId := "C1".toList
    invoiceNumber := "INV-2025-09-0001".toList
    status := Status.paid
    items := [{ description := "a".toList, quantity := 1, rate := 2, amount := 2 }]
    subtotal := 2, taxRate := 0, taxAmount := 0
    discountRate := 0, discountAmount := 0, total := 2
    currency := "USD".toList, issueDate := 0, dueDate := 0
    paidDate := none, notes := none, terms := none }

/-- A store whose latest (and only) invoice of the month for owner `U1` has a
malformed trailing sequence segment. -/
def dbMalformed : List Doc :=
  [{ userId := "U1".toList, invoiceNumber := "INV-2025-09-ABCD".toList }]

/-- The tail of the store reached after 10000 sequential generate-then-persist
cycles for owner `U1` in 2025-09: the invoices with sequence values 9990
through 10000 (the generator consults only the lexicographically greatest
matching number, so smaller sequence values are irrelevant to its output). -/
def dbTenThousand : List Doc :=
  (List.range 11).map
    (fun k => { userId := "U1".toList, invoiceNumber := mkNum 2025 9 (9990 + k) })

/-- A store holding a 2025-09 invoice of another owner `U2` and a 2025-08
invoice of owner `U1`, but no 2025-09 invoice of owner `U1`. -/
def dbOtherScopes : List Doc :=
  [{ userId := "U2".toList, invoiceNumber := "INV-2025-09-0001".toList },
   { userId := "U1".toList, invoiceNumber := "INV-2025-08-0007".toList }]

/-- A persisted invoice whose stored item amounts and totals already agree with
the totals hook (as for every document that has been saved through it). -/
def invStable : Invoice :=
  { userId := "U1".toList, customerId := "C7".toList
    invoiceNumber := "INV-2025-09-0042".toList
    status := Status.sent
    items := [{ description := "a".toList, quantity := 2, rate := 3, amount := 6 }]
    subtotal := 6, taxRate := 10, taxAmount := 3 / 5
    discountRate := 0, discountAmount := 0, total := 33 / 5
    currency := "USD".toList, issueDate := 0, dueDate := 50
    paidDate := some 40, notes := none, terms := some ("net 30".toList) }

/-! ### Auxiliary lemmas -/

/-- The executable `Rat.floor` agrees with the mathematical floor. -/
theorem ratFloor_eq (q : ℚ) : Rat.floor q = Int.floor q := by
  rw [Rat.floor_def', Rat.floor_def]

/-- `jsMathRound` is the floor of `x + 1/2`. -/
theorem jsMathRound_eq (x : ℚ) : jsMathRound x = Int.floor (x + 1 / 2) := by
  rw [jsMathRound, ratFloor_eq]

/-- On nonnegative inputs the code's half-up rounding and the spec's
half-away-from-zero rounding to two decimals coincide. -/
theorem round2_eq_round2Away {x : ℚ} (hx : 0 ≤ x) : round2 x = round2Away x := by
  unfold round2 round2Away roundHalfAwayFromZero jsMathRound
  rw [if_pos (by positivity)]

/-- Folding a sum from an arbitrary accumulator shifts it additively. -/
theorem foldl_add_shift (g : Item → ℚ) :
    ∀ (l : List Item) (a : ℚ),
      l.foldl (fun s it => s + g it) a = a + l.foldl (fun s it => s + g it) 0
  | [], a => by simp
  | x :: l, a => by
    simp only [List.foldl_cons]
    rw [foldl_add_shift g l (a + g x), foldl_add_shift g l (0 + g x)]
    ring

/-- `rawSubtotal` over a cons. -/
theorem rawSubtotal_cons (x : Item) (l : List Item) :
    rawSubtotal (x :: l) = x.quantity * x.rate + rawSubtotal l := by
  unfold rawSubtotal
  simp only [List.foldl_cons]
  rw [foldl_add_shift (fun it => it.quantity * it.rate) l (0 + x.quantity * x.rate)]
  ring_nf

/-- A subtotal of items with positive quantities and nonnegative rates is
nonnegative. -/
theorem rawSubtotal_nonneg :
    ∀ {l : List Item}, (∀ it ∈ l, 0 < it.quantity ∧ 0 ≤ it.rate) → 0 ≤ rawSubtotal l
  | [], _ => le_refl 0
  | x :: l, h => by
    rw [rawSubtotal_cons]
    have hx := h x (List.mem_cons_self x l)
    have hl := rawSubtotal_nonneg (fun it hit => h it (List.mem_cons_of_mem x hit))
    have : 0 ≤ x.quantity * x.rate := mul_nonneg (le_of_lt hx.1) hx.2
    linarith

/-- The hook's reduce, from an arbitrary accumulator. -/
theorem hookFold_go :
    ∀ (l : List Item) (s : ℚ) (acc : List Item),
      l.foldl
        (fun p it =>
          (p.1 + it.quantity * it.rate, p.2 ++ [{ it with amount := it.quantity * it.rate }]))
        (s, acc) =
      (s + rawSubtotal l,
        acc ++ l.map (fun it => { it with amount := it.quantity * it.rate }))
  | [], s, acc => by simp [rawSubtotal]
  | x :: l, s, acc => by
    simp only [List.foldl_cons, List.map_cons]
    rw [hookFold_go l]
    rw [rawSubtotal_cons]
    simp only [Prod.mk.injEq]
    exact ⟨by ring, by simp⟩

/-- The first component of `hookFold` is the raw subtotal. -/
theorem hookFold_fst (l : List Item) : (hookFold l).1 = rawSubtotal l := by
  unfold hookFold
  rw [hookFold_go]
  simp

/-- The second component of `hookFold` is the item list with every amount
overwritten by `quantity * rate`. -/
theorem hookFold_snd (l : List Item) :
    (hookFold l).2 = l.map (fun it => { it with amount := it.quantity * it.rate }) := by
  unfold hookFold
  rw [hookFold_go]
  simp

/-- The purity fold of `calculateInvoiceTotalsRun`, from an arbitrary
accumulator. -/
theorem runFold_go :
    ∀ (l : List Item) (s : ℚ) (acc : List Item),
      l.foldl (fun (q : ℚ × List Item) it => (q.1 + it.quantity * it.rate, q.2 ++ [it]))
        (s, acc) =
      (s + rawSubtotal l, acc ++ l)
  | [], s, acc => by simp [rawSubtotal]
  | x :: l, s, acc => by
    simp only [List.foldl_cons]
    rw [runFold_go l (s + x.quantity * x.rate) (acc ++ [x])]
    rw [rawSubtotal_cons]
    simp only [Prod.mk.injEq]
    exact ⟨by ring, by simp⟩

/-- The status hook never touches the monetary fields. -/
theorem statusHook_money (now : ℚ) (inv : Invoice) :
    (statusHook now inv).subtotal = inv.subtotal ∧
    (statusHook now inv).taxAmount = inv.taxAmount ∧
    (statusHook now inv).discountAmount = inv.discountAmount ∧
    (statusHook now inv).total = inv.total := by
  unfold statusHook
  split_ifs <;> exact ⟨rfl, rfl, rfl, rfl⟩

/-! ### Claim theorems -/

/-- C2: when the stored latest invoice number of the month has a malformed
trailing segment (here `INV-2025-09-ABCD`), `generateInvoiceNumber` does not
surface an error: it returns normally with `INV-2025-09-0NaN` — `parseInt`
yields `NaN`, `NaN + 1` is `NaN`, and `String(NaN).padStart(4, '0')` is
`"0NaN"` — a number silently derived from the malformed value. -/
theorem generateOnMalformedYieldsNaN :
    generateInvoiceNumber ("U1".toList) 2025 9 dbMalformed = "INV-2025-09-0NaN".toList := by
  decide

/-- C3: an invoice saved with `status = paid` and no `paidDate` keeps
`status = paid` after the status hook — the second branch only re-assigns the
already-absent `paidDate` and never clears the status, so after this save
`status == paid` holds while no `paidDate` is present. -/
theorem statusHookKeepsPaidWithoutPaidDate :
    (statusHook 1 invPaidNoDate).status = Status.paid ∧
    (statusHook 1 invPaidNoDate).paidDate = none := by
  decide

/-- C4: the schema's field-level unique index on `invoiceNumber` alone rejects
any save whose invoice number equals that of an existing invoice, with no
condition on the owners — in particular also when the owners differ. -/
theorem saveRejectsDuplicateNumberAcrossOwners (db : List Doc) (d e : Doc)
    (he : e ∈ db) (hn : e.invoiceNumber = d.invoiceNumber) :
    insertInvoice db d = none := by
  have hany : db.any (fun x => x.invoiceNumber == d.invoiceNumber) = true :=
    List.any_eq_true.mpr ⟨e, he, by simp [hn]⟩
  simp [insertInvoice, hany]

/-- C4 witness: a second owner `U2` cannot save `INV-2025-09-0001` once owner
`U1` holds it. -/
theorem saveRejectsDuplicateNumberAcrossOwnersInst :
    insertInvoice [⟨"U1".toList, "INV-2025-09-0001".toList⟩]
      ⟨"U2".toList, "INV-2025-09-0001".toList⟩ = none :=
  saveRejectsDuplicateNumberAcrossOwners _ _ _ (List.mem_singleton.mpr rfl) rfl

/-- C5: the 10001st sequential generation duplicates an existing number.  On
the store reached after 10000 generate-then-persist cycles (its relevant tail
`dbTenThousand`), the lexicographically greatest matching number is
`INV-2025-09-9999` — the string `"10000"` sorts below `"9999"` — so the
generator returns `INV-2025-09-10000`, which the store already contains. -/
theorem generateDuplicatesAfterTenThousand :
    generateInvoiceNumber ("U1".toList) 2025 9 dbTenThousand = mkNum 2025 9 10000 ∧
    mkNum 2025 9 10000 ∈ dbTenThousand.map Doc.invoiceNumber :=
  ⟨by decide, by decide⟩

/-- C6: in a (owner, year, month) scope where the owner holds no invoice with
that month's prefix, the generator returns sequence 1, whatever invoices the
same owner holds under other prefixes and whatever invoices other owners
hold. -/
theorem generateResetsToOneOnFreshScope (u : Str) (year month : Nat) (db : List Doc)
    (h : ∀ d ∈ db, d.userId = u → isPfx (monthPfx year month) d.invoiceNumber = false) :
    generateInvoiceNumber u year month db = monthPfx year month ++ "-0001".toList := by
  have hfilter :
      db.filter (fun d => d.userId == u && isPfx (monthPfx year month) d.invoiceNumber) = [] := by
    rw [List.filter_eq_nil_iff]
    intro d hd
    simp only [Bool.and_eq_true, beq_iff_eq, not_and]
    intro hu
    simp [h d hd hu]
  have hpad : padStart (intToChars 1) 4 '0' = "0001".toList := by decide
  simp only [generateInvoiceNumber, latestMatch, hfilter, List.foldl_nil, hpad]
  rfl

/-- C6 witness: owner `U1` has no 2025-09 invoice in `dbOtherScopes` (which
holds a 2025-09 invoice of owner `U2` and a 2025-08 invoice of `U1`), so the
generator returns `INV-2025-09-0001`. -/
theorem generateResetsToOneOnFreshScopeInst :
    generateInvoiceNumber ("U1".toList) 2025 9 dbOtherScopes =
      monthPfx 2025 9 ++ "-0001".toList :=
  generateResetsToOneOnFreshScope ("U1".toList) 2025 9 dbOtherScopes (by decide)

/-- C9: the spec's worked example: items `{qty 1, rate 2500}` and
`{qty 10, rate 150}` with tax rate `8.25` and discount rate `5` give subtotal
4000, tax 330, discount 200 and total 4130. -/
theorem calcWorkedExample :
    calculateInvoiceTotals itemsExample (33 / 4) 5 =
      { subtotal := 4000, taxAmount := 330, discountAmount := 200, total := 4130 } := by
  simp [calculateInvoiceTotals, rawSubtotal, round2, jsMathRound_eq, itemsExample,
    Totals.mk.injEq]
  norm_num

/-- C1 counterexample: the invoice `invTenth` (quantity 1, rate 0.1, tax rate
5, discount rate 0 — all within the claimed input ranges) is persisted with
the raw tax amount `0.005`, while the two-decimal half-away-from-zero rounding
of the raw tax amount is `0.01`: the value stored after save is not rounded. -/
theorem persistedTaxAmountNotRounded :
    (saveHooks 0 invTenth).taxAmount = 1 / 200 ∧
    round2Away (rawSubtotal invTenth.items * invTenth.taxRate / 100) = 1 / 100 ∧
    (saveHooks 0 invTenth).taxAmount ≠
      round2Away (rawSubtotal invTenth.items * invTenth.taxRate / 100) := by
  have hraw : rawSubtotal invTenth.items * invTenth.taxRate / 100 = 1 / 200 := by
    simp [rawSubtotal, invTenth]
    norm_num
  have h1 : (saveHooks 0 invTenth).taxAmount = 1 / 200 := by
    simp [saveHooks, statusHook, totalsHook, hookFold, invTenth]
    norm_num
  have h2 : round2Away (rawSubtotal invTenth.items * invTenth.taxRate / 100) = 1 / 100 := by
    rw [hraw]
    unfold round2Away roundHalfAwayFromZero
    rw [if_pos (by norm_num), ratFloor_eq]
    norm_num
  exact ⟨h1, h2, by rw [h1, h2]; norm_num⟩

/-- C1 amended: for items with positive quantities and nonnegative rates and
rates in `[0, 100]`, the four outputs of `calculateInvoiceTotals` are the four
raw values rounded half away from zero to two decimals, each at the final step
only; the persisted invoice after save, however, carries the raw unrounded
values recomputed by the totals hook. -/
theorem calcRoundsHookStoresRaw (inv : Invoice) (now : ℚ)
    (_hne : inv.items ≠ [])
    (hitems : ∀ it ∈ inv.items, 0 < it.quantity ∧ 0 ≤ it.rate)
    (ht0 : 0 ≤ inv.taxRate) (_ht1 : inv.taxRate ≤ 100)
    (hd0 : 0 ≤ inv.discountRate) (hd1 : inv.discountRate ≤ 100) :
    calculateInvoiceTotals inv.items inv.taxRate inv.discountRate =
      { subtotal := round2Away (rawSubtotal inv.items)
        taxAmount := round2Away (rawSubtotal inv.items * inv.taxRate / 100)
        discountAmount := round2Away (rawSubtotal inv.items * inv.discountRate / 100)
        total := round2Away (rawSubtotal inv.items + rawSubtotal inv.items * inv.taxRate / 100 -
          rawSubtotal inv.items * inv.discountRate / 100) } ∧
    (saveHooks now inv).subtotal = rawSubtotal inv.items ∧
    (saveHooks now inv).taxAmount = rawSubtotal inv.items * inv.taxRate / 100 ∧
    (saveHooks now inv).discountAmount = rawSubtotal inv.items * inv.discountRate / 100 ∧
    (saveHooks now inv).total =
      rawSubtotal inv.items + rawSubtotal inv.items * inv.taxRate / 100 -
        rawSubtotal inv.items * inv.discountRate / 100 := by
  have hS : 0 ≤ rawSubtotal inv.items := rawSubtotal_nonneg hitems
  have hT : 0 ≤ rawSubtotal inv.items * inv.taxRate / 100 :=
    div_nonneg (mul_nonneg hS ht0) (by norm_num)
  have hD : 0 ≤ rawSubtotal inv.items * inv.discountRate / 100 :=
    div_nonneg (mul_nonneg hS hd0) (by norm_num)
  have hTot : 0 ≤ rawSubtotal inv.items + rawSubtotal inv.items * inv.taxRate / 100 -
      rawSubtotal inv.items * inv.discountRate / 100 := by
    nlinarith [mul_nonneg hS (sub_nonneg.mpr hd1), mul_nonneg hS ht0]
  have t1 : (totalsHook inv).subtotal = rawSubtotal inv.items := hookFold_fst inv.items
  have t2 : (totalsHook inv).taxAmount = rawSubtotal inv.items * inv.taxRate / 100 := by
    show (hookFold inv.items).1 * inv.taxRate / 100 = _
    rw [hookFold_fst]
  have t3 : (totalsHook inv).discountAmount = rawSubtotal inv.items * inv.discountRate / 100 := by
    show (hookFold inv.items).1 * inv.discountRate / 100 = _
    rw [hookFold_fst]
  have t4 : (totalsHook inv).total =
      rawSubtotal inv.items + rawSubtotal inv.items * inv.taxRate / 100 -
        rawSubtotal inv.items * inv.discountRate / 100 := by
    show (hookFold inv.items).1 + (hookFold inv.items).1 * inv.taxRate / 100 -
      (hookFold inv.items).1 * inv.discountRate / 100 = _
    rw [hookFold_fst]
  have hm := statusHook_money now (totalsHook inv)
  exact ⟨by
    simp only [calculateInvoiceTotals]
    rw [round2_eq_round2Away hS, round2_eq_round2Away hT, round2_eq_round2Away hD,
      round2_eq_round2Away hTot],
    hm.1.trans t1, hm.2.1.trans t2, hm.2.2.1.trans t3, hm.2.2.2.trans t4⟩

/-- C1 witness: the amended claim instantiated at `invTenth` (whose inputs are
within all the claimed ranges) at clock 0. -/
theorem calcRoundsHookStoresRawInst :
    calculateInvoiceTotals invTenth.items invTenth.taxRate invTenth.discountRate =
      { subtotal := round2Away (rawSubtotal invTenth.items)
        taxAmount := round2Away (rawSubtotal invTenth.items * invTenth.taxRate / 100)
        discountAmount := round2Away (rawSubtotal invTenth.items * invTenth.discountRate / 100)
        total := round2Away (rawSubtotal invTenth.items +
          rawSubtotal invTenth.items * invTenth.taxRate / 100 -
          rawSubtotal invTenth.items * invTenth.discountRate / 100) } ∧
    (saveHooks 0 invTenth).subtotal = rawSubtotal invTenth.items ∧
    (saveHooks 0 invTenth).taxAmount = rawSubtotal invTenth.items * invTenth.taxRate / 100 ∧
    (saveHooks 0 invTenth).discountAmount =
      rawSubtotal invTenth.items * invTenth.discountRate / 100 ∧
    (saveHooks 0 invTenth).total =
      rawSubtotal invTenth.items + rawSubtotal invTenth.items * invTenth.taxRate / 100 -
        rawSubtotal invTenth.items * invTenth.discountRate / 100 :=
  calcRoundsHookStoresRaw invTenth 0 (by simp [invTenth])
    (by
      intro it hit
      simp [invTenth] at hit
      subst hit
      exact ⟨by norm_num, by norm_num⟩)
    (by norm_num [invTenth]) (by norm_num [invTenth])
    (by norm_num [invTenth]) (by norm_num [invTenth])

/-- C7: the save-time status rules, evaluated in their fixed order, yield
`overdue` exactly when no `paidDate` is present and the invoice either already
was `overdue` or is `sent` with its due date strictly in the past; in
particular an invoice with a `paidDate`, and an invoice in a status other than
`sent` or `overdue`, never comes out `overdue`. -/
theorem statusHookOverdueIff (now : ℚ) (inv : Invoice) :
    (statusHook now inv).status = Status.overdue ↔
      inv.paidDate = none ∧
        (inv.status = Status.overdue ∨ (inv.status = Status.sent ∧ inv.dueDate < now)) := by
  rcases hp : inv.paidDate with _ | d <;> rcases hs : inv.status <;>
    by_cases hd : inv.dueDate < now <;>
      simp [statusHook, hp, hs, hd]

/-- C8: duplicating a persisted invoice (one whose stored amounts agree with
the totals hook, as for every document saved through it) produces a new
invoice with a freshly generated number, status `draft` and no `paidDate`,
while customer, items, all monetary fields, currency, due date, notes and
terms are copied unchanged; the collection keeps the original and appends the
duplicate. -/
theorem duplicateResetsAndCopies (db : List Invoice) (orig : Invoice) (year month : Nat)
    (now : ℚ) (h : totalsHook orig = orig) :
    (dupNew db orig year month now).invoiceNumber =
        generateInvoiceNumber orig.userId year month (db.map toDoc) ∧
    (dupNew db orig year month now).status = Status.draft ∧
    (dupNew db orig year month now).paidDate = none ∧
    (dupNew db orig year month now).customerId = orig.customerId ∧
    (dupNew db orig year month now).items = orig.items ∧
    (dupNew db orig year month now).subtotal = orig.subtotal ∧
    (dupNew db orig year month now).taxRate = orig.taxRate ∧
    (dupNew db orig year month now).taxAmount = orig.taxAmount ∧
    (dupNew db orig year month now).discountRate = orig.discountRate ∧
    (dupNew db orig year month now).discountAmount = orig.discountAmount ∧
    (dupNew db orig year month now).total = orig.total ∧
    (dupNew db orig year month now).currency = orig.currency ∧
    (dupNew db orig year month now).dueDate = orig.dueDate ∧
    (dupNew db orig year month now).notes = orig.notes ∧
    (dupNew db orig year month now).terms = orig.terms ∧
    duplicateInvoiceOp db orig year month now = db ++ [dupNew db orig year month now] := by
  obtain ⟨u, c, n, st, its, sub, tr, ta, dr, da, tot, cur, iss, due, pd, no, te⟩ := orig
  simp only [totalsHook, Invoice.mk.injEq, and_true, true_and] at h
  obtain ⟨h1, h2, h3, h4, h5⟩ := h
  subst h2
  subst h3
  subst h4
  subst h5
  simp only [dupNew, saveHooks, totalsHook, statusHook, duplicateInvoiceOp, Invoice.mk.injEq,
    Option.isSome_none, Bool.false_eq_true, false_and, if_false, Option.isNone_none,
    reduceCtorEq, and_false, if_neg, not_false_eq_true]
  simp [h1]

/-- C8 witness: the duplicate properties instantiated at the hook-stable
invoice `invStable` over the singleton collection holding it. -/
theorem duplicateResetsAndCopiesInst :
    (dupNew [invStable] invStable 2025 9 45).invoiceNumber =
        generateInvoiceNumber invStable.userId 2025 9 ([invStable].map toDoc) ∧
    (dupNew [invStable] invStable 2025 9 45).status = Status.draft ∧
    (dupNew [invStable] invStable 2025 9 45).paidDate = none ∧
    (dupNew [invStable] invStable 2025 9 45).customerId = invStable.customerId ∧
    (dupNew [invStable] invStable 2025 9 45).items = invStable.items ∧
    (dupNew [invStable] invStable 2025 9 45).subtotal = invStable.subtotal ∧
    (dupNew [invStable] invStable 2025 9 45).taxRate = invStable.taxRate ∧
    (dupNew [invStable] invStable 2025 9 45).taxAmount = invStable.taxAmount ∧
    (dupNew [invStable] invStable 2025 9 45).discountRate = invStable.discountRate ∧
    (dupNew [invStable] invStable 2025 9 45).discountAmount = invStable.discountAmount ∧
    (dupNew [invStable] invStable 2025 9 45).total = invStable.total ∧
    (dupNew [invStable] invStable 2025 9 45).currency = invStable.currency ∧
    (dupNew [invStable] invStable 2025 9 45).dueDate = invStable.dueDate ∧
    (dupNew [invStable] invStable 2025 9 45).notes = invStable.notes ∧
    (dupNew [invStable] invStable 2025 9 45).terms = invStable.terms ∧
    duplicateInvoiceOp [invStable] invStable 2025 9 45 =
      [invStable] ++ [dupNew [invStable] invStable 2025 9 45] :=
  duplicateResetsAndCopies [invStable] invStable 2025 9 45
    (by
      simp [totalsHook, hookFold, invStable, Invoice.mk.injEq, Item.mk.injEq]
      norm_num)

/-- C10: the totals calculator is deterministic and mutates nothing: its run
on any inputs equals itself, leaves the item array exactly as it was, and its
value is the pure `calculateInvoiceTotals`. -/
theorem calcDeterministicAndPure (items : List Item) (taxRate discountRate : ℚ) :
    calculateInvoiceTotalsRun items taxRate discountRate =
        calculateInvoiceTotalsRun items taxRate discountRate ∧
    (calculateInvoiceTotalsRun items taxRate discountRate).2 = items ∧
    (calculateInvoiceTotalsRun items taxRate discountRate).1 =
      calculateInvoiceTotals items taxRate discountRate := by
  have hrun : items.foldl
      (fun (q : ℚ × List Item) it => (q.1 + it.quantity * it.rate, q.2 ++ [it])) (0, []) =
      (rawSubtotal items, items) := by
    rw [runFold_go]
    simp
  refine ⟨rfl, ?_, ?_⟩
  · show (items.foldl
      (fun (q : ℚ × List Item) it => (q.1 + it.quantity * it.rate, q.2 ++ [it])) (0, [])).2 = items
    rw [hrun]
  · simp only [calculateInvoiceTotalsRun, calculateInvoiceTotals, hrun]

end InvoiceApp
